import Mathlib

/-!
# Verification of the rock-paper-scissors commit-reveal pallet

Shallow embedding of `pallets/rock_paper_scissors/src/lib.rs`.

Modelling conventions:
* `AccountId`, `GameId` (`u64`), `Secret` (`u64`) become `Nat`; overflow is
  modelled explicitly with `% 2 ^ 64` where the Rust code performs arithmetic
  (only the `NextGameId` counter increment).
* Bytes are `Nat`s (values `< 256` wherever the code produces them); a byte
  string is a `List Nat`.
* The external hash `sp_io::hashing::twox_64` is not code of this repository;
  the pallet treats it as a black-box function from byte strings to 8-byte
  values, so it is passed around as an explicit parameter `h : Bytes → Bytes`.
* Storage (`NextGameId`, `Games`) becomes a `PalletState` record with the map
  as a function `GameId → Option GameState`; `StorageMap::insert` is a
  pointwise update.
* Each dispatchable becomes a function from the pre-state and its arguments to
  a `CallResult` carrying the post-state, the deposited event on success, and
  either the `DispatchResult` error or a `panic` marker for the `Option::unwrap`
  calls in `reveal_winner` (Rust panics on `unwrap` of `None`).
  `ensure_signed` is modelled by taking the signer as an explicit argument.
-/

abbrev GameId := Nat
abbrev Secret := Nat
abbrev AccountId := Nat
abbrev Bytes := List Nat

/-- `GameMovement` enum from the source. -/
inductive GameMovement
  | Rock
  | Paper
  | Scissors
deriving DecidableEq, Repr, Fintype

/-- `GameResult` enum from the source. -/
inductive GameResult
  | NotPlayed
  | Win
  | Lose
  | Draw
deriving DecidableEq, Repr

/-- `GameMovement::play`: outcome of `self` against `other`. -/
def GameMovement.play : GameMovement → GameMovement → GameResult
  | .Rock, .Rock => .Draw
  | .Rock, .Paper => .Lose
  | .Rock, .Scissors => .Win
  | .Paper, .Rock => .Win
  | .Paper, .Paper => .Draw
  | .Paper, .Scissors => .Lose
  | .Scissors, .Rock => .Lose
  | .Scissors, .Paper => .Win
  | .Scissors, .Scissors => .Draw

/-- `GameMovement::to_bytes`: the one-byte encoding `1/2/3`. -/
def GameMovement.to_bytes : GameMovement → Bytes
  | .Rock => [1]
  | .Paper => [2]
  | .Scissors => [3]

/-- `u64::to_ne_bytes`: the eight native-endian bytes of a `u64` secret.
Native endianness is little-endian on every platform the pallet targets. -/
def u64_to_ne_bytes (s : Secret) : Bytes :=
  [s % 256, s / 2 ^ 8 % 256, s / 2 ^ 16 % 256, s / 2 ^ 24 % 256,
   s / 2 ^ 32 % 256, s / 2 ^ 40 % 256, s / 2 ^ 48 % 256, s / 2 ^ 56 % 256]

/-- `SecretGameMovement([u8; 8])`: a stored commitment (hash output). -/
structure SecretGameMovement where
  bytes : Bytes
deriving DecidableEq, Repr

/-- `SecretGameMovement::new`: hash the move's byte followed by the secret's
native-endian bytes.  `h` is the external `twox_64`. -/
def SecretGameMovement.new (h : Bytes → Bytes) (movement : GameMovement)
    (secret : Secret) : SecretGameMovement :=
  ⟨h (movement.to_bytes ++ u64_to_ne_bytes secret)⟩

/-- `SecretGameMovement::is_equal`: recompute the commitment and compare. -/
def SecretGameMovement.is_equal (h : Bytes → Bytes) (self : SecretGameMovement)
    (movement : GameMovement) (secret : Secret) : Bool :=
  SecretGameMovement.new h movement secret = self

/-- `PlayerMovement<AccountId>`: a filled slot. -/
structure PlayerMovement where
  player : AccountId
  movement : SecretGameMovement
deriving DecidableEq, Repr

/-- `GameState<AccountId>`. -/
structure GameState where
  player1 : Option PlayerMovement
  player2 : Option PlayerMovement
  game_result : GameResult
  winner : Option AccountId
deriving DecidableEq, Repr

/-- `GameState::default`. -/
def GameState.default : GameState :=
  { player1 := none, player2 := none, game_result := .NotPlayed, winner := none }

/-- `GameState::has_player`. -/
def GameState.has_player (self : GameState) (player : AccountId) : Bool :=
  let found := false
  let found := match self.player1 with
    | some val => if val.player = player then true else found
    | none => found
  let found := match self.player2 with
    | some val => if val.player = player then true else found
    | none => found
  found

/-- `GameState::has_free_slots`. -/
def GameState.has_free_slots (self : GameState) : Bool :=
  self.player1.isNone || self.player2.isNone

/-- `GameState::add_player`: returns the mutated state and the `bool` result. -/
def GameState.add_player (h : Bytes → Bytes) (self : GameState)
    (player : AccountId) (movement : GameMovement) (secret : Secret) :
    GameState × Bool :=
  let player_movement :=
    some { player := player, movement := SecretGameMovement.new h movement secret }
  if self.player1.isNone then
    ({ self with player1 := player_movement }, true)
  else if self.player2.isNone then
    ({ self with player2 := player_movement }, true)
  else
    (self, false)

/-- `Error<T>` variants of the pallet. -/
inductive PalletError
  | NoneValue
  | StorageOverflow
  | GameNotFound
  | GameIsFull
  | PlayerAlreadyInGame
  | PlayerNotInGame
  | InvalidHash
deriving DecidableEq, Repr

/-- `Event<T>` variants of the pallet. -/
inductive Event
  | GameCreated (id : GameId)
  | PlayerMadeMovement (who : AccountId)
  | GameFinished (id : GameId) (result : GameResult) (winner : Option AccountId)
deriving DecidableEq, Repr

/-- Pallet storage: the `NextGameId` `StorageValue` and the `Games` `StorageMap`. -/
structure PalletState where
  nextGameId : Nat
  games : GameId → Option GameState

/-- Result of dispatching a call: post-state plus deposited event on `Ok`,
the `DispatchResult` error otherwise, or `panic` when the Rust code would
panic (`Option::unwrap` on `None`).  A failed dispatch performs no storage
write in the source, so `err`/`panic` carry the unchanged pre-state. -/
inductive CallResult
  | ok (st : PalletState) (ev : Event)
  | err (st : PalletState) (e : PalletError)
  | panic (st : PalletState)

def CallResult.state : CallResult → PalletState
  | .ok st _ => st
  | .err st _ => st
  | .panic st => st

def CallResult.isOk : CallResult → Bool
  | .ok _ _ => true
  | _ => false

def CallResult.isPanic : CallResult → Bool
  | .panic _ => true
  | _ => false

def CallResult.event : CallResult → Option Event
  | .ok _ ev => some ev
  | _ => none

def CallResult.error : CallResult → Option PalletError
  | .err _ e => some e
  | _ => none

/-- `StorageMap::insert` on the `Games` map. -/
def PalletState.insertGame (st : PalletState) (game_id : GameId)
    (g : GameState) : PalletState :=
  { st with games := fun k => if k = game_id then some g else st.games k }

/-- `create_game`: increment `NextGameId` (u64 arithmetic), read it back,
insert a default game under it, deposit `GameCreated`.  Never fails for a
signed origin (`origin` is modelled away; the signer is irrelevant here). -/
def create_game (st : PalletState) : PalletState × Event :=
  let next := (st.nextGameId + 1) % 2 ^ 64
  let game_id := next
  (({ st with nextGameId := next }).insertGame game_id GameState.default,
   .GameCreated game_id)

/-- `play_game` with signer `account_id`. -/
def play_game (h : Bytes → Bytes) (st : PalletState) (account_id : AccountId)
    (game_id : GameId) (movement : GameMovement) (secret : Secret) : CallResult :=
  match st.games game_id with
  | none => .err st .GameNotFound
  | some game_state =>
    if game_state.has_free_slots = false then .err st .GameIsFull
    else if game_state.has_player account_id = true then .err st .PlayerAlreadyInGame
    else
      let game_state := (game_state.add_player h account_id movement secret).1
      .ok (st.insertGame game_id game_state) (.PlayerMadeMovement account_id)

/-- `reveal_winner` with signer `player1`. -/
def reveal_winner (h : Bytes → Bytes) (st : PalletState) (player1 : AccountId)
    (game_id : GameId) (player1_movement : GameMovement) (player1_secret : Secret)
    (player2 : AccountId) (player2_movement : GameMovement)
    (player2_secret : Secret) : CallResult :=
  match st.games game_id with
  | none => .err st .GameNotFound
  | some game_state =>
    if game_state.has_player player1 = false then .err st .PlayerNotInGame
    else if game_state.has_player player2 = false then .err st .PlayerNotInGame
    else
      -- `game_state.player1.as_ref().unwrap()` / `player2.as_ref().unwrap()`:
      -- Rust panics when either slot is `None`.
      match game_state.player1, game_state.player2 with
      | some p1, some p2 =>
        if p1.movement.is_equal h player1_movement player1_secret = false then
          .err st .InvalidHash
        else if p2.movement.is_equal h player2_movement player2_secret = false then
          .err st .InvalidHash
        else if game_state.game_result ≠ GameResult.NotPlayed then
          .ok st (.GameFinished game_id game_state.game_result game_state.winner)
        else
          let game_result := player1_movement.play player2_movement
          let game_state :=
            match game_result with
            | .Win => { game_state with winner := some player1 }
            | .Lose => { game_state with winner := some player2 }
            | .Draw => { game_state with game_result := .Draw }
            | .NotPlayed => game_state
          let winner := game_state.winner
          let game_state := { game_state with game_result := game_result }
          .ok (st.insertGame game_id game_state)
            (.GameFinished game_id game_result winner)
      | _, _ => .panic st

/-! ## Shared material for the theorems -/

/-- Cyclic dominance as the spec words it: Rock beats Scissors, Scissors
beats Paper, Paper beats Rock.  Spec-side definition, to be compared with
`GameMovement.play` from the source. -/
def spec_beats : GameMovement → GameMovement → Bool
  | .Rock, .Scissors => true
  | .Scissors, .Paper => true
  | .Paper, .Rock => true
  | _, _ => false

/-- A concrete stand-in for the external `twox_64` hash, used to evaluate the
operations at concrete inputs (the pallet never inspects hash output beyond
equality, so any concrete function exercises the same control flow). -/
def hId : Bytes → Bytes := fun b => b

/-- A storage holding exactly one game. -/
def mkSt (gid : GameId) (g : GameState) : PalletState :=
  { nextGameId := gid, games := fun k => if k = gid then some g else none }

/-- The stored winner of game `gid` after a call, when the call succeeded and
the game exists. -/
def winnerAfter (r : CallResult) (gid : GameId) : Option (Option AccountId) :=
  (r.state.games gid).map (fun g => g.winner)

/-- The stored result of game `gid` after a call, when the game exists. -/
def resultAfter (r : CallResult) (gid : GameId) : Option GameResult :=
  (r.state.games gid).map (fun g => g.game_result)

/-! ## C4: the resolution table -/

/-- C4: `GameMovement.play` is total with values in `{Win, Lose, Draw}`,
`play x x = Draw`, and `play a b = Win` exactly when `a` beats `b`,
`play a b = Lose` exactly when `b` beats `a`, under the spec's cyclic
dominance (Rock > Scissors > Paper > Rock). -/
theorem C4_resolve_cyclic_dominance :
    (∀ a b : GameMovement,
      a.play b = .Win ∨ a.play b = .Lose ∨ a.play b = .Draw)
    ∧ (∀ x : GameMovement, x.play x = .Draw)
    ∧ (∀ a b : GameMovement, (a.play b = .Win ↔ spec_beats a b = true))
    ∧ (∀ a b : GameMovement, (a.play b = .Lose ↔ spec_beats b a = true)) := by
  refine ⟨?_, ?_, ?_, ?_⟩ <;> decide

/-! ## C5: commit/verify round-trip -/

/-- C5: `is_equal` holds exactly when recomputing the commitment from the
given pair yields the stored commitment, and in particular every commitment
verifies against the pair it was built from — for every hash function `h`
(the code never relies on any property of `twox_64` here). -/
theorem C5_verify_commit_roundtrip :
    (∀ (h : Bytes → Bytes) (c : SecretGameMovement) (m : GameMovement) (s : Secret),
      c.is_equal h m s = true ↔ SecretGameMovement.new h m s = c)
    ∧ (∀ (h : Bytes → Bytes) (m : GameMovement) (s : Secret),
      (SecretGameMovement.new h m s).is_equal h m s = true) := by
  constructor
  · intro h c m s
    simp [SecretGameMovement.is_equal]
  · intro h m s
    simp [SecretGameMovement.is_equal]

/-! ## C10: commitment byte layout -/

/-- C10: the byte string hashed for a commitment is exactly the one-byte move
encoding (1 = Rock, 2 = Paper, 3 = Scissors) followed by the eight
native-endian bytes of the secret, in that order. -/
theorem C10_commit_preimage_layout :
    (∀ (h : Bytes → Bytes) (m : GameMovement) (s : Secret),
      SecretGameMovement.new h m s =
        ⟨h (m.to_bytes ++ u64_to_ne_bytes s)⟩)
    ∧ GameMovement.to_bytes .Rock = [1]
    ∧ GameMovement.to_bytes .Paper = [2]
    ∧ GameMovement.to_bytes .Scissors = [3]
    ∧ (∀ s : Secret, (u64_to_ne_bytes s).length = 8)
    ∧ (∀ s : Secret, ∀ b ∈ u64_to_ne_bytes s, b < 256) := by
  refine ⟨fun h m s => rfl, rfl, rfl, rfl, fun s => rfl, ?_⟩
  intro s b hb
  simp only [u64_to_ne_bytes, List.mem_cons, List.not_mem_nil, or_false] at hb
  rcases hb with h | h | h | h | h | h | h | h <;>
    · subst h; exact Nat.mod_lt _ (by norm_num)

/-! ## C2: reveal can panic on a half-filled game -/

/-- A game holding only one player (account 7 in slot 1), still `NotPlayed`. -/
def halfSt : PalletState :=
  mkSt 1 { player1 := some { player := 7, movement := SecretGameMovement.new hId .Rock 0 },
           player2 := none, game_result := .NotPlayed, winner := none }

/-- C2: with game 1 half-filled by account 7, a `reveal_winner` call signed by
7 naming `player2 = 7` passes both `has_player` guards and then panics on
`game_state.player2.as_ref().unwrap()` — it neither returns `Ok` nor any of
the declared errors. -/
theorem C2_reveal_panics_on_half_filled_game :
    ((halfSt.games 1).map (fun g => g.has_player 7) = some true)
    ∧ ((halfSt.games 1).map (fun g => g.player2) = some none)
    ∧ (reveal_winner hId halfSt 7 1 .Rock 0 7 .Rock 0).isPanic = true := by
  refine ⟨rfl, rfl, rfl⟩

/-! ## C9: game id allocation -/

/-- The initial pallet storage: `NextGameId = 0` (`ValueQuery` default) and no
games. -/
def stInit : PalletState := { nextGameId := 0, games := fun _ => none }

/-- C9 counterexample: from the initial storage, where no id has been
allocated and id `0` is unused (the smallest unused value), the first
`create_game` allocates id `1`, not `0` — the counter is incremented before
being read. -/
theorem C9_cex_first_id_is_one :
    stInit.games 0 = none
    ∧ stInit.nextGameId = 0
    ∧ (create_game stInit).2 = .GameCreated 1
    ∧ Event.GameCreated 1 ≠ Event.GameCreated 0 := by
  refine ⟨rfl, rfl, by decide, by decide⟩

/-- C9 as amended: `create_game` increments the counter first and allocates
`nextGameId + 1`, so ids start at 1 and each allocation is strictly greater
than the previous one (away from `u64` exhaustion); the new game is stored
empty (`GameState::default`) under exactly that id, other games are
untouched, and the `GameCreated` event carries exactly the new id.
`create_game` is total (never fails for a signed caller). -/
theorem C9_create_allocates_sequentially (st : PalletState)
    (hno : st.nextGameId + 2 < 2 ^ 64) :
    (create_game st).2 = .GameCreated (st.nextGameId + 1)
    ∧ (create_game st).1.nextGameId = st.nextGameId + 1
    ∧ (create_game st).1.games (st.nextGameId + 1) = some GameState.default
    ∧ GameState.default =
        { player1 := none, player2 := none, game_result := .NotPlayed, winner := none }
    ∧ st.nextGameId < (create_game st).1.nextGameId
    ∧ (create_game (create_game st).1).2 = .GameCreated (st.nextGameId + 2)
    ∧ (∀ k, k ≠ st.nextGameId + 1 → (create_game st).1.games k = st.games k) := by
  have e1 : (st.nextGameId + 1) % 2 ^ 64 = st.nextGameId + 1 :=
    Nat.mod_eq_of_lt (by omega)
  have e2 : (st.nextGameId + 1 + 1) % 2 ^ 64 = st.nextGameId + 2 :=
    Nat.mod_eq_of_lt (by omega)
  refine ⟨?_, ?_, ?_, rfl, ?_, ?_, ?_⟩
  · simp only [create_game, e1]
  · simp only [create_game, PalletState.insertGame, e1]
  · simp only [create_game, PalletState.insertGame, e1, if_pos]
  · simp only [create_game, PalletState.insertGame, e1]
    omega
  · simp only [create_game, PalletState.insertGame, e1, e2]
  · intro k hk
    simp only [create_game, PalletState.insertGame, e1]
    exact if_neg hk

theorem C9_witness_initial_create :
    (create_game stInit).2 = .GameCreated 1
    ∧ (create_game stInit).1.nextGameId = 1
    ∧ (create_game stInit).1.games 1 = some GameState.default
    ∧ (create_game (create_game stInit).1).2 = .GameCreated 2
    ∧ (create_game stInit).1.games 5 = none := by
  obtain ⟨h1, h2, h3, _, _, h6, h7⟩ :=
    C9_create_allocates_sequentially stInit (by decide)
  exact ⟨h1, h2, h3, h6, (h7 5 (by decide)).trans rfl⟩

/-! ## Helper lemmas about storage and the operations -/

theorem PalletState.insertGame_self (st : PalletState) (gid : GameId)
    (g : GameState) : (st.insertGame gid g).games gid = some g := by
  simp [PalletState.insertGame]

theorem PalletState.insertGame_ne (st : PalletState) (gid k : GameId)
    (g : GameState) (hk : k ≠ gid) :
    (st.insertGame gid g).games k = st.games k := by
  simp [PalletState.insertGame, hk]

theorem play_game_ok_iff (h : Bytes → Bytes) (st : PalletState) (a : AccountId)
    (gid : GameId) (m : GameMovement) (s : Secret) (st' : PalletState)
    (e : Event) :
    play_game h st a gid m s = .ok st' e ↔
      ∃ g, st.games gid = some g ∧ g.has_free_slots = true ∧
        g.has_player a = false ∧
        st' = st.insertGame gid (g.add_player h a m s).1 ∧
        e = .PlayerMadeMovement a := by
  unfold play_game
  cases hg : st.games gid with
  | none => simp
  | some g =>
    dsimp only
    split_ifs with hfree hp
    · simp [hfree]
    · simp [hp]
    · have hfree' : g.has_free_slots = true := by
        revert hfree; cases g.has_free_slots <;> simp
      have hp' : g.has_player a = false := by
        revert hp; cases g.has_player a <;> simp
      simp only [CallResult.ok.injEq, Option.some.injEq]
      constructor
      · rintro ⟨h1, h2⟩
        exact ⟨g, rfl, hfree', hp', h1.symm, h2.symm⟩
      · rintro ⟨g', hg', _, _, hst, he⟩
        subst hg'
        exact ⟨hst.symm, he.symm⟩

theorem play_game_not_found (h : Bytes → Bytes) (st : PalletState)
    (a : AccountId) (gid : GameId) (m : GameMovement) (s : Secret)
    (hg : st.games gid = none) :
    play_game h st a gid m s = .err st .GameNotFound := by
  simp [play_game, hg]

theorem play_game_full (h : Bytes → Bytes) (st : PalletState) (a : AccountId)
    (gid : GameId) (m : GameMovement) (s : Secret) (g : GameState)
    (hg : st.games gid = some g) (h1 : g.player1.isSome = true)
    (h2 : g.player2.isSome = true) :
    play_game h st a gid m s = .err st .GameIsFull := by
  obtain ⟨p1, hp1⟩ := Option.isSome_iff_exists.mp h1
  obtain ⟨p2, hp2⟩ := Option.isSome_iff_exists.mp h2
  have hfree : g.has_free_slots = false := by
    simp [GameState.has_free_slots, hp1, hp2]
  simp [play_game, hg, hfree]

theorem play_game_dup (h : Bytes → Bytes) (st : PalletState) (a : AccountId)
    (gid : GameId) (m : GameMovement) (s : Secret) (g : GameState)
    (hg : st.games gid = some g) (hfree : g.has_free_slots = true)
    (hp : g.has_player a = true) :
    play_game h st a gid m s = .err st .PlayerAlreadyInGame := by
  simp [play_game, hg, hfree, hp]

theorem play_game_fail_state (h : Bytes → Bytes) (st : PalletState)
    (a : AccountId) (gid : GameId) (m : GameMovement) (s : Secret)
    (hfail : (play_game h st a gid m s).isOk = false) :
    (play_game h st a gid m s).state = st := by
  revert hfail
  unfold play_game
  cases hg : st.games gid with
  | none => intro _; rfl
  | some g =>
    dsimp only
    split_ifs <;> intro hfail <;> first | rfl | simp [CallResult.isOk] at hfail

theorem add_player_slot1 (h : Bytes → Bytes) (g : GameState) (a : AccountId)
    (m : GameMovement) (s : Secret) (hp1 : g.player1 = none) :
    (g.add_player h a m s).1 =
      { g with player1 := some { player := a, movement := SecretGameMovement.new h m s } } := by
  simp [GameState.add_player, hp1]

theorem add_player_slot2 (h : Bytes → Bytes) (g : GameState) (a : AccountId)
    (m : GameMovement) (s : Secret) (pm : PlayerMovement)
    (hp1 : g.player1 = some pm) (hp2 : g.player2 = none) :
    (g.add_player h a m s).1 =
      { g with player2 := some { player := a, movement := SecretGameMovement.new h m s } } := by
  simp [GameState.add_player, hp1, hp2]

/-! ## C6: join failure modes -/

/-- C6: `play_game` fails with `GameNotFound` when the game does not exist,
with `GameIsFull` when both slots are filled (in particular after any two
successful joins on the same game, every further join by any player fails
with `GameIsFull`), and with `PlayerAlreadyInGame` when the caller already
occupies a slot; every failure leaves storage unchanged. -/
theorem C6_join_failure_modes (h : Bytes → Bytes) (st : PalletState)
    (a : AccountId) (gid : GameId) (m : GameMovement) (s : Secret) :
    (st.games gid = none → play_game h st a gid m s = .err st .GameNotFound)
    ∧ (∀ g, st.games gid = some g → g.player1.isSome = true →
        g.player2.isSome = true →
        play_game h st a gid m s = .err st .GameIsFull)
    ∧ (∀ g, st.games gid = some g → g.has_free_slots = true →
        g.has_player a = true →
        play_game h st a gid m s = .err st .PlayerAlreadyInGame)
    ∧ ((play_game h st a gid m s).isOk = false →
        (play_game h st a gid m s).state = st)
    ∧ (∀ a1 m1 s1 a2 m2 s2 st1 e1 st2 e2,
        play_game h st a1 gid m1 s1 = .ok st1 e1 →
        play_game h st1 a2 gid m2 s2 = .ok st2 e2 →
        ∀ a3 m3 s3, play_game h st2 a3 gid m3 s3 = .err st2 .GameIsFull) := by
  refine ⟨play_game_not_found h st a gid m s,
    fun g hg h1 h2 => play_game_full h st a gid m s g hg h1 h2,
    fun g hg hfree hp => play_game_dup h st a gid m s g hg hfree hp,
    play_game_fail_state h st a gid m s, ?_⟩
  intro a1 m1 s1 a2 m2 s2 st1 e1 st2 e2 hok1 hok2 a3 m3 s3
  rw [play_game_ok_iff] at hok1 hok2
  obtain ⟨g, hg, hfree, -, hst1, -⟩ := hok1
  obtain ⟨g', hg', hfree', -, hst2, -⟩ := hok2
  subst hst1
  subst hst2
  rw [PalletState.insertGame_self] at hg'
  injection hg' with hg''
  subst hg''
  cases hp1 : g.player1 with
  | none =>
    have hga := add_player_slot1 h g a1 m1 s1 hp1
    have hp2 : ((g.add_player h a1 m1 s1).1).player2 = g.player2 := by
      rw [hga]
    have hp2' : g.player2 = none := by
      rw [hga] at hfree'
      revert hfree'
      cases hq : g.player2 <;> simp [GameState.has_free_slots, hq]
    have hgb := add_player_slot2 h (g.add_player h a1 m1 s1).1 a2 m2 s2
      { player := a1, movement := SecretGameMovement.new h m1 s1 }
      (by rw [hga]) (hp2.trans hp2')
    apply play_game_full h _ a3 gid m3 s3 _ (PalletState.insertGame_self _ _ _)
    · rw [hgb, hga]
      rfl
    · rw [hgb]
      rfl
  | some pm =>
    exfalso
    have hp2 : g.player2 = none := by
      revert hfree
      cases hq : g.player2 <;> simp [GameState.has_free_slots, hp1, hq]
    have hga := add_player_slot2 h g a1 m1 s1 pm hp1 hp2
    rw [hga] at hfree'
    simp [GameState.has_free_slots, hp1] at hfree'

/-- A game with both slots filled (players 1 and 2), not yet resolved. -/
def fullG : GameState :=
  { player1 := some { player := 1, movement := SecretGameMovement.new hId .Rock 4 },
    player2 := some { player := 2, movement := SecretGameMovement.new hId .Paper 5 },
    game_result := .NotPlayed, winner := none }

/-- Storage holding `fullG` as game 1. -/
def fullSt : PalletState := mkSt 1 fullG

theorem C6_witness_full_and_missing_game :
    play_game hId fullSt 3 1 .Scissors 6 = .err fullSt .GameIsFull
    ∧ play_game hId fullSt 7 99 .Rock 0 = .err fullSt .GameNotFound
    ∧ play_game hId fullSt 1 1 .Rock 4 = .err fullSt .GameIsFull := by
  refine ⟨(C6_join_failure_modes hId fullSt 3 1 .Scissors 6).2.1 fullG rfl rfl rfl,
    (C6_join_failure_modes hId fullSt 7 99 .Rock 0).1 rfl,
    (C6_join_failure_modes hId fullSt 1 1 .Rock 4).2.1 fullG rfl rfl rfl⟩

/-! ## C7: join success behaviour -/

/-- C7: a successful `play_game` stores the caller's commitment
`commit(move, secret)` in the first empty slot (slot 1 when it is empty,
otherwise slot 2), leaves the already-filled slot untouched, persists the
updated game under the same id (all other ids unchanged), and deposits
`PlayerMadeMovement` carrying only the caller's account id — the move and
secret appear in no event (the `PlayerMadeMovement` constructor holds only
an `AccountId`). -/
theorem C7_join_fills_first_empty_slot (h : Bytes → Bytes) (st : PalletState)
    (a : AccountId) (gid : GameId) (m : GameMovement) (s : Secret)
    (g : GameState) (hg : st.games gid = some g)
    (hfree : g.has_free_slots = true) (hnp : g.has_player a = false) :
    play_game h st a gid m s =
      .ok (st.insertGame gid (g.add_player h a m s).1) (.PlayerMadeMovement a)
    ∧ (g.player1 = none →
        (g.add_player h a m s).1 =
          { g with player1 := some { player := a, movement := SecretGameMovement.new h m s } })
    ∧ (∀ pm, g.player1 = some pm → g.player2 = none →
        (g.add_player h a m s).1 =
          { g with player2 := some { player := a, movement := SecretGameMovement.new h m s } })
    ∧ ((st.insertGame gid (g.add_player h a m s).1).games gid =
        some (g.add_player h a m s).1)
    ∧ (∀ k, k ≠ gid →
        (st.insertGame gid (g.add_player h a m s).1).games k = st.games k) := by
  refine ⟨?_, ?_, ?_, PalletState.insertGame_self st gid _, ?_⟩
  · rw [play_game_ok_iff]
    exact ⟨g, hg, hfree, hnp, rfl, rfl⟩
  · intro hp1
    exact add_player_slot1 h g a m s hp1
  · intro pm hp1 hp2
    exact add_player_slot2 h g a m s pm hp1 hp2
  · intro k hk
    exact PalletState.insertGame_ne st gid k _ hk

/-- Storage holding the empty game 1. -/
def emptySt : PalletState := mkSt 1 GameState.default

theorem C7_witness_first_join :
    play_game hId emptySt 5 1 .Rock 9 =
      .ok (emptySt.insertGame 1 (GameState.default.add_player hId 5 .Rock 9).1)
        (.PlayerMadeMovement 5)
    ∧ (GameState.default.add_player hId 5 .Rock 9).1 =
        { player1 := some { player := 5, movement := SecretGameMovement.new hId .Rock 9 },
          player2 := none, game_result := .NotPlayed, winner := none } := by
  obtain ⟨h1, h2, -, -, -⟩ :=
    C7_join_fills_first_empty_slot hId emptySt 5 1 .Rock 9 GameState.default
      rfl rfl rfl
  exact ⟨h1, (h2 rfl).trans rfl⟩

/-! ## Helper lemmas about reveal_winner -/

/-- The winner `reveal_winner` stores and emits for outcome `r`: the caller on
`Win`, the named second player on `Lose`, the previous value otherwise. -/
def resolveWinner (g : GameState) (player1 player2 : AccountId)
    (r : GameResult) : Option AccountId :=
  match r with
  | .Win => some player1
  | .Lose => some player2
  | _ => g.winner

/-- The game record `reveal_winner` persists when it resolves with outcome `r`. -/
def resolvedGame (g : GameState) (player1 player2 : AccountId)
    (r : GameResult) : GameState :=
  { g with winner := resolveWinner g player1 player2 r, game_result := r }

theorem reveal_winner_resolves (h : Bytes → Bytes) (st : PalletState)
    (caller : AccountId) (gid : GameId) (m1 : GameMovement) (s1 : Secret)
    (p2acc : AccountId) (m2 : GameMovement) (s2 : Secret) (g : GameState)
    (p1m p2m : PlayerMovement) (hg : st.games gid = some g)
    (hc : g.has_player caller = true) (hp : g.has_player p2acc = true)
    (h1 : g.player1 = some p1m) (h2 : g.player2 = some p2m)
    (hv1 : p1m.movement.is_equal h m1 s1 = true)
    (hv2 : p2m.movement.is_equal h m2 s2 = true)
    (hres : g.game_result = .NotPlayed) :
    reveal_winner h st caller gid m1 s1 p2acc m2 s2 =
      .ok (st.insertGame gid (resolvedGame g caller p2acc (m1.play m2)))
        (.GameFinished gid (m1.play m2)
          (resolveWinner g caller p2acc (m1.play m2))) := by
  unfold reveal_winner
  rw [hg]
  dsimp only
  rw [hc, hp, h1, h2]
  dsimp only
  rw [hv1, hv2, hres]
  simp only [reduceIte, ne_eq, not_true_eq_false]
  cases hpl : m1.play m2 <;>
    simp [resolvedGame, resolveWinner, hres, h1, h2]

theorem reveal_winner_short_circuit (h : Bytes → Bytes) (st : PalletState)
    (caller : AccountId) (gid : GameId) (m1 : GameMovement) (s1 : Secret)
    (p2acc : AccountId) (m2 : GameMovement) (s2 : Secret) (g : GameState)
    (p1m p2m : PlayerMovement) (hg : st.games gid = some g)
    (hc : g.has_player caller = true) (hp : g.has_player p2acc = true)
    (h1 : g.player1 = some p1m) (h2 : g.player2 = some p2m)
    (hv1 : p1m.movement.is_equal h m1 s1 = true)
    (hv2 : p2m.movement.is_equal h m2 s2 = true)
    (hres : g.game_result ≠ .NotPlayed) :
    reveal_winner h st caller gid m1 s1 p2acc m2 s2 =
      .ok st (.GameFinished gid g.game_result g.winner) := by
  unfold reveal_winner
  rw [hg]
  dsimp only
  rw [hc, hp, h1, h2]
  dsimp only
  rw [hv1, hv2]
  simp [hres]

theorem bool_eq_true_of_ne_false {b : Bool} (hb : ¬b = false) : b = true := by
  cases b <;> simp_all

theorem bool_eq_false_of_ne_true {b : Bool} (hb : ¬b = true) : b = false := by
  cases b <;> simp_all

theorem reveal_not_found (h : Bytes → Bytes) (st : PalletState)
    (caller : AccountId) (gid : GameId) (m1 : GameMovement) (s1 : Secret)
    (p2acc : AccountId) (m2 : GameMovement) (s2 : Secret)
    (hg : st.games gid = none) :
    reveal_winner h st caller gid m1 s1 p2acc m2 s2 = .err st .GameNotFound := by
  unfold reveal_winner
  rw [hg]

theorem reveal_caller_not_in_game (h : Bytes → Bytes) (st : PalletState)
    (caller : AccountId) (gid : GameId) (m1 : GameMovement) (s1 : Secret)
    (p2acc : AccountId) (m2 : GameMovement) (s2 : Secret) (g : GameState)
    (hg : st.games gid = some g) (hc : g.has_player caller = false) :
    reveal_winner h st caller gid m1 s1 p2acc m2 s2 = .err st .PlayerNotInGame := by
  unfold reveal_winner
  rw [hg]
  dsimp only
  rw [hc]
  simp

theorem reveal_named_not_in_game (h : Bytes → Bytes) (st : PalletState)
    (caller : AccountId) (gid : GameId) (m1 : GameMovement) (s1 : Secret)
    (p2acc : AccountId) (m2 : GameMovement) (s2 : Secret) (g : GameState)
    (hg : st.games gid = some g) (hc : g.has_player caller = true)
    (hp : g.has_player p2acc = false) :
    reveal_winner h st caller gid m1 s1 p2acc m2 s2 = .err st .PlayerNotInGame := by
  unfold reveal_winner
  rw [hg]
  dsimp only
  rw [hc, hp]
  simp

theorem reveal_panic_on_empty_slot (h : Bytes → Bytes) (st : PalletState)
    (caller : AccountId) (gid : GameId) (m1 : GameMovement) (s1 : Secret)
    (p2acc : AccountId) (m2 : GameMovement) (s2 : Secret) (g : GameState)
    (hg : st.games gid = some g) (hc : g.has_player caller = true)
    (hp : g.has_player p2acc = true)
    (hslot : g.player1 = none ∨ g.player2 = none) :
    reveal_winner h st caller gid m1 s1 p2acc m2 s2 = .panic st := by
  unfold reveal_winner
  rw [hg]
  dsimp only
  rw [hc, hp]
  rw [if_neg (by simp : ¬(true = false))]
  rw [if_neg (by simp : ¬(true = false))]
  rcases hslot with h1 | h2
  · rw [h1]
  · rw [h2]
    cases g.player1 <;> rfl

theorem reveal_invalid_hash1 (h : Bytes → Bytes) (st : PalletState)
    (caller : AccountId) (gid : GameId) (m1 : GameMovement) (s1 : Secret)
    (p2acc : AccountId) (m2 : GameMovement) (s2 : Secret) (g : GameState)
    (p1m p2m : PlayerMovement) (hg : st.games gid = some g)
    (hc : g.has_player caller = true) (hp : g.has_player p2acc = true)
    (h1 : g.player1 = some p1m) (h2 : g.player2 = some p2m)
    (hv1 : p1m.movement.is_equal h m1 s1 = false) :
    reveal_winner h st caller gid m1 s1 p2acc m2 s2 = .err st .InvalidHash := by
  unfold reveal_winner
  rw [hg]
  dsimp only
  rw [hc, hp, h1, h2]
  dsimp only
  rw [hv1]
  simp

theorem reveal_invalid_hash2 (h : Bytes → Bytes) (st : PalletState)
    (caller : AccountId) (gid : GameId) (m1 : GameMovement) (s1 : Secret)
    (p2acc : AccountId) (m2 : GameMovement) (s2 : Secret) (g : GameState)
    (p1m p2m : PlayerMovement) (hg : st.games gid = some g)
    (hc : g.has_player caller = true) (hp : g.has_player p2acc = true)
    (h1 : g.player1 = some p1m) (h2 : g.player2 = some p2m)
    (hv1 : p1m.movement.is_equal h m1 s1 = true)
    (hv2 : p2m.movement.is_equal h m2 s2 = false) :
    reveal_winner h st caller gid m1 s1 p2acc m2 s2 = .err st .InvalidHash := by
  unfold reveal_winner
  rw [hg]
  dsimp only
  rw [hc, hp, h1, h2]
  dsimp only
  rw [hv1, hv2]
  simp

theorem reveal_winner_ok_inv (h : Bytes → Bytes) (st : PalletState)
    (caller : AccountId) (gid : GameId) (m1 : GameMovement) (s1 : Secret)
    (p2acc : AccountId) (m2 : GameMovement) (s2 : Secret) (st' : PalletState)
    (ev : Event)
    (hok : reveal_winner h st caller gid m1 s1 p2acc m2 s2 = .ok st' ev) :
    ∃ g p1m p2m, st.games gid = some g ∧ g.has_player caller = true ∧
      g.has_player p2acc = true ∧ g.player1 = some p1m ∧
      g.player2 = some p2m ∧ p1m.movement.is_equal h m1 s1 = true ∧
      p2m.movement.is_equal h m2 s2 = true ∧
      ((g.game_result ≠ .NotPlayed ∧ st' = st ∧
          ev = .GameFinished gid g.game_result g.winner)
        ∨ (g.game_result = .NotPlayed ∧
          st' = st.insertGame gid (resolvedGame g caller p2acc (m1.play m2)) ∧
          ev = .GameFinished gid (m1.play m2)
            (resolveWinner g caller p2acc (m1.play m2)))) := by
  cases hg : st.games gid with
  | none =>
    rw [reveal_not_found h st caller gid m1 s1 p2acc m2 s2 hg] at hok
    exact CallResult.noConfusion hok
  | some g =>
    cases hc : g.has_player caller with
    | false =>
      rw [reveal_caller_not_in_game h st caller gid m1 s1 p2acc m2 s2 g hg hc] at hok
      exact CallResult.noConfusion hok
    | true =>
      cases hp : g.has_player p2acc with
      | false =>
        rw [reveal_named_not_in_game h st caller gid m1 s1 p2acc m2 s2 g hg hc hp] at hok
        exact CallResult.noConfusion hok
      | true =>
        cases h1 : g.player1 with
        | none =>
          rw [reveal_panic_on_empty_slot h st caller gid m1 s1 p2acc m2 s2 g
            hg hc hp (Or.inl h1)] at hok
          exact CallResult.noConfusion hok
        | some p1m =>
          cases h2 : g.player2 with
          | none =>
            rw [reveal_panic_on_empty_slot h st caller gid m1 s1 p2acc m2 s2 g
              hg hc hp (Or.inr h2)] at hok
            exact CallResult.noConfusion hok
          | some p2m =>
            cases hv1 : p1m.movement.is_equal h m1 s1 with
            | false =>
              rw [reveal_invalid_hash1 h st caller gid m1 s1 p2acc m2 s2 g
                p1m p2m hg hc hp h1 h2 hv1] at hok
              exact CallResult.noConfusion hok
            | true =>
              cases hv2 : p2m.movement.is_equal h m2 s2 with
              | false =>
                rw [reveal_invalid_hash2 h st caller gid m1 s1 p2acc m2 s2 g
                  p1m p2m hg hc hp h1 h2 hv1 hv2] at hok
                exact CallResult.noConfusion hok
              | true =>
                by_cases hres : g.game_result = .NotPlayed
                · rw [reveal_winner_resolves h st caller gid m1 s1 p2acc m2 s2 g
                    p1m p2m hg hc hp h1 h2 hv1 hv2 hres] at hok
                  injection hok with e1 e2
                  exact ⟨g, p1m, p2m, rfl, hc, hp, h1, h2, hv1, hv2,
                    Or.inr ⟨hres, e1.symm, e2.symm⟩⟩
                · rw [reveal_winner_short_circuit h st caller gid m1 s1 p2acc m2 s2 g
                    p1m p2m hg hc hp h1 h2 hv1 hv2 hres] at hok
                  injection hok with e1 e2
                  exact ⟨g, p1m, p2m, rfl, hc, hp, h1, h2, hv1, hv2,
                    Or.inl ⟨hres, e1.symm, e2.symm⟩⟩

theorem reveal_winner_fail_state (h : Bytes → Bytes) (st : PalletState)
    (caller : AccountId) (gid : GameId) (m1 : GameMovement) (s1 : Secret)
    (p2acc : AccountId) (m2 : GameMovement) (s2 : Secret)
    (hfail : (reveal_winner h st caller gid m1 s1 p2acc m2 s2).isOk = false) :
    (reveal_winner h st caller gid m1 s1 p2acc m2 s2).state = st := by
  cases hr : reveal_winner h st caller gid m1 s1 p2acc m2 s2 with
  | ok st' ev =>
    rw [hr] at hfail
    exact absurd hfail (by simp [CallResult.isOk])
  | err st' e =>
    suffices hs : st' = st by subst hs; rfl
    cases hg : st.games gid with
    | none =>
      rw [reveal_not_found h st caller gid m1 s1 p2acc m2 s2 hg] at hr
      injection hr with e1 e2
      exact e1.symm
    | some g =>
      cases hc : g.has_player caller with
      | false =>
        rw [reveal_caller_not_in_game h st caller gid m1 s1 p2acc m2 s2 g hg hc] at hr
        injection hr with e1 e2
        exact e1.symm
      | true =>
        cases hp : g.has_player p2acc with
        | false =>
          rw [reveal_named_not_in_game h st caller gid m1 s1 p2acc m2 s2 g hg hc hp] at hr
          injection hr with e1 e2
          exact e1.symm
        | true =>
          cases h1 : g.player1 with
          | none =>
            rw [reveal_panic_on_empty_slot h st caller gid m1 s1 p2acc m2 s2 g
              hg hc hp (Or.inl h1)] at hr
            exact CallResult.noConfusion hr
          | some p1m =>
            cases h2 : g.player2 with
            | none =>
              rw [reveal_panic_on_empty_slot h st caller gid m1 s1 p2acc m2 s2 g
                hg hc hp (Or.inr h2)] at hr
              exact CallResult.noConfusion hr
            | some p2m =>
              cases hv1 : p1m.movement.is_equal h m1 s1 with
              | false =>
                rw [reveal_invalid_hash1 h st caller gid m1 s1 p2acc m2 s2 g
                  p1m p2m hg hc hp h1 h2 hv1] at hr
                injection hr with e1 e2
                exact e1.symm
              | true =>
                cases hv2 : p2m.movement.is_equal h m2 s2 with
                | false =>
                  rw [reveal_invalid_hash2 h st caller gid m1 s1 p2acc m2 s2 g
                    p1m p2m hg hc hp h1 h2 hv1 hv2] at hr
                  injection hr with e1 e2
                  exact e1.symm
                | true =>
                  by_cases hres : g.game_result = .NotPlayed
                  · rw [reveal_winner_resolves h st caller gid m1 s1 p2acc m2 s2 g
                      p1m p2m hg hc hp h1 h2 hv1 hv2 hres] at hr
                    exact CallResult.noConfusion hr
                  · rw [reveal_winner_short_circuit h st caller gid m1 s1 p2acc m2 s2 g
                      p1m p2m hg hc hp h1 h2 hv1 hv2 hres] at hr
                    exact CallResult.noConfusion hr
  | panic st' =>
    suffices hs : st' = st by subst hs; rfl
    cases hg : st.games gid with
    | none =>
      rw [reveal_not_found h st caller gid m1 s1 p2acc m2 s2 hg] at hr
      exact CallResult.noConfusion hr
    | some g =>
      cases hc : g.has_player caller with
      | false =>
        rw [reveal_caller_not_in_game h st caller gid m1 s1 p2acc m2 s2 g hg hc] at hr
        exact CallResult.noConfusion hr
      | true =>
        cases hp : g.has_player p2acc with
        | false =>
          rw [reveal_named_not_in_game h st caller gid m1 s1 p2acc m2 s2 g hg hc hp] at hr
          exact CallResult.noConfusion hr
        | true =>
          cases h1 : g.player1 with
          | none =>
            rw [reveal_panic_on_empty_slot h st caller gid m1 s1 p2acc m2 s2 g
              hg hc hp (Or.inl h1)] at hr
            injection hr with e1
            exact e1.symm
          | some p1m =>
            cases h2 : g.player2 with
            | none =>
              rw [reveal_panic_on_empty_slot h st caller gid m1 s1 p2acc m2 s2 g
                hg hc hp (Or.inr h2)] at hr
              injection hr with e1
              exact e1.symm
            | some p2m =>
              cases hv1 : p1m.movement.is_equal h m1 s1 with
              | false =>
                rw [reveal_invalid_hash1 h st caller gid m1 s1 p2acc m2 s2 g
                  p1m p2m hg hc hp h1 h2 hv1] at hr
                exact CallResult.noConfusion hr
              | true =>
                cases hv2 : p2m.movement.is_equal h m2 s2 with
                | false =>
                  rw [reveal_invalid_hash2 h st caller gid m1 s1 p2acc m2 s2 g
                    p1m p2m hg hc hp h1 h2 hv1 hv2] at hr
                  exact CallResult.noConfusion hr
                | true =>
                  by_cases hres : g.game_result = .NotPlayed
                  · rw [reveal_winner_resolves h st caller gid m1 s1 p2acc m2 s2 g
                      p1m p2m hg hc hp h1 h2 hv1 hv2 hres] at hr
                    exact CallResult.noConfusion hr
                  · rw [reveal_winner_short_circuit h st caller gid m1 s1 p2acc m2 s2 g
                      p1m p2m hg hc hp h1 h2 hv1 hv2 hres] at hr
                    exact CallResult.noConfusion hr

theorem GameState.has_player_eq_of_slots (g g' : GameState)
    (e1 : g'.player1 = g.player1) (e2 : g'.player2 = g.player2)
    (x : AccountId) : g'.has_player x = g.has_player x := by
  unfold GameState.has_player
  rw [e1, e2]

theorem play_ne_NotPlayed (a b : GameMovement) : a.play b ≠ .NotPlayed := by
  cases a <;> cases b <;> simp [GameMovement.play]

/-! ## C3: resolution is idempotent -/

/-- C3: once a game's result is away from `NotPlayed`, a reveal that passes
all the guards re-emits the stored `(Outcome, winner)` pair with the storage
untouched; consequently any successful reveal, replayed with the same
arguments, returns the very same event and leaves the post-state of the
first call unchanged — storage is mutated by the first call only. -/
theorem C3_reveal_idempotent (h : Bytes → Bytes) (st : PalletState)
    (caller : AccountId) (gid : GameId) (m1 : GameMovement) (s1 : Secret)
    (p2acc : AccountId) (m2 : GameMovement) (s2 : Secret) :
    (∀ g p1m p2m, st.games gid = some g → g.has_player caller = true →
      g.has_player p2acc = true → g.player1 = some p1m →
      g.player2 = some p2m → p1m.movement.is_equal h m1 s1 = true →
      p2m.movement.is_equal h m2 s2 = true → g.game_result ≠ .NotPlayed →
      reveal_winner h st caller gid m1 s1 p2acc m2 s2 =
        .ok st (.GameFinished gid g.game_result g.winner))
    ∧ (∀ st' ev, reveal_winner h st caller gid m1 s1 p2acc m2 s2 = .ok st' ev →
        reveal_winner h st' caller gid m1 s1 p2acc m2 s2 = .ok st' ev) := by
  constructor
  · intro g p1m p2m hg hc hp h1 h2 hv1 hv2 hres
    exact reveal_winner_short_circuit h st caller gid m1 s1 p2acc m2 s2 g
      p1m p2m hg hc hp h1 h2 hv1 hv2 hres
  · intro st' ev hok
    obtain ⟨g, p1m, p2m, hg, hc, hp, h1, h2, hv1, hv2, hcase⟩ :=
      reveal_winner_ok_inv h st caller gid m1 s1 p2acc m2 s2 st' ev hok
    rcases hcase with ⟨hres, hst, hev⟩ | ⟨hres, hst, hev⟩
    · subst hst
      subst hev
      exact reveal_winner_short_circuit h _ caller gid m1 s1 p2acc m2 s2 g
        p1m p2m hg hc hp h1 h2 hv1 hv2 hres
    · subst hst
      subst hev
      have hcp : (resolvedGame g caller p2acc (m1.play m2)).has_player caller = true := by
        rw [GameState.has_player_eq_of_slots g
          (resolvedGame g caller p2acc (m1.play m2)) rfl rfl]
        exact hc
      have hpp : (resolvedGame g caller p2acc (m1.play m2)).has_player p2acc = true := by
        rw [GameState.has_player_eq_of_slots g
          (resolvedGame g caller p2acc (m1.play m2)) rfl rfl]
        exact hp
      exact reveal_winner_short_circuit h _ caller gid m1 s1 p2acc m2 s2
        (resolvedGame g caller p2acc (m1.play m2)) p1m p2m
        (PalletState.insertGame_self st gid _) hcp hpp h1 h2 hv1 hv2
        (play_ne_NotPlayed m1 m2)

theorem C3_witness_second_reveal_unchanged :
    reveal_winner hId
        (fullSt.insertGame 1 (resolvedGame fullG 1 2 (GameMovement.play .Rock .Paper)))
        1 1 .Rock 4 2 .Paper 5 =
      .ok (fullSt.insertGame 1 (resolvedGame fullG 1 2 (GameMovement.play .Rock .Paper)))
        (.GameFinished 1 (GameMovement.play .Rock .Paper)
          (resolveWinner fullG 1 2 (GameMovement.play .Rock .Paper))) := by
  apply (C3_reveal_idempotent hId fullSt 1 1 .Rock 4 2 .Paper 5).2
  exact reveal_winner_resolves hId fullSt 1 1 .Rock 4 2 .Paper 5 fullG
    { player := 1, movement := SecretGameMovement.new hId .Rock 4 }
    { player := 2, movement := SecretGameMovement.new hId .Paper 5 }
    rfl rfl rfl rfl rfl (by decide) (by decide) rfl

/-! ## C1: who the stored winner is -/

/-- C1 (as amended): a reveal that resolves a still-unplayed game with both
slots filled stores and emits the outcome `resolve(move₁, move₂)` together
with a winner that is the *caller* on `Win` and the *named* `player₂` on
`Lose` (`None`/unchanged on `Draw`) — these coincide with the slot-1 and
slot-2 occupants exactly when the caller reveals from slot 1 and names the
slot-2 occupant, but not in general. -/
theorem C1_winner_is_caller_on_win (h : Bytes → Bytes) (st : PalletState)
    (caller : AccountId) (gid : GameId) (m1 : GameMovement) (s1 : Secret)
    (p2acc : AccountId) (m2 : GameMovement) (s2 : Secret) (g : GameState)
    (p1m p2m : PlayerMovement) (hg : st.games gid = some g)
    (hc : g.has_player caller = true) (hp : g.has_player p2acc = true)
    (h1 : g.player1 = some p1m) (h2 : g.player2 = some p2m)
    (hv1 : p1m.movement.is_equal h m1 s1 = true)
    (hv2 : p2m.movement.is_equal h m2 s2 = true)
    (hres : g.game_result = .NotPlayed) :
    reveal_winner h st caller gid m1 s1 p2acc m2 s2 =
      .ok (st.insertGame gid (resolvedGame g caller p2acc (m1.play m2)))
        (.GameFinished gid (m1.play m2)
          (resolveWinner g caller p2acc (m1.play m2)))
    ∧ resolveWinner g caller p2acc .Win = some caller
    ∧ resolveWinner g caller p2acc .Lose = some p2acc
    ∧ resolveWinner g caller p2acc .Draw = g.winner := by
  exact ⟨reveal_winner_resolves h st caller gid m1 s1 p2acc m2 s2 g p1m p2m
    hg hc hp h1 h2 hv1 hv2 hres, rfl, rfl, rfl⟩

/-- A game whose slot 1 is held by account 10 and slot 2 by account 20. -/
def crossedG : GameState :=
  { player1 := some { player := 10, movement := SecretGameMovement.new hId .Rock 0 },
    player2 := some { player := 20, movement := SecretGameMovement.new hId .Scissors 1 },
    game_result := .NotPlayed, winner := none }

/-- Storage holding `crossedG` as game 1. -/
def crossedSt : PalletState := mkSt 1 crossedG

/-- C1 counterexample: the slot-2 occupant (account 20) calls reveal,
supplying the slot-1 move/secret as the `player1` pair and naming the slot-1
occupant (account 10) as `player2`.  All guards pass, the game resolves with
`resolve(Rock, Scissors) = Win`, yet the stored winner is the *caller* 20 —
not the slot-1 occupant 10 as the claim requires. -/
theorem C1_cex_crossed_reveal :
    (crossedSt.games 1).map (fun g => g.game_result) = some .NotPlayed
    ∧ (crossedSt.games 1).map (fun g => g.player1.map (fun pm => pm.player)) =
        some (some 10)
    ∧ (crossedSt.games 1).map (fun g => g.player2.map (fun pm => pm.player)) =
        some (some 20)
    ∧ GameMovement.play .Rock .Scissors = .Win
    ∧ (reveal_winner hId crossedSt 20 1 .Rock 0 10 .Scissors 1).isOk = true
    ∧ winnerAfter (reveal_winner hId crossedSt 20 1 .Rock 0 10 .Scissors 1) 1 =
        some (some 20)
    ∧ (some (some 20) : Option (Option AccountId)) ≠ some (some 10) := by
  refine ⟨rfl, rfl, rfl, rfl, by decide, by decide, by decide⟩

theorem C1_witness_straight_reveal :
    reveal_winner hId fullSt 2 1 .Rock 4 1 .Paper 5 =
      .ok (fullSt.insertGame 1 (resolvedGame fullG 2 1 (GameMovement.play .Rock .Paper)))
        (.GameFinished 1 GameResult.Lose (some 1)) := by
  obtain ⟨hmain, -, -, -⟩ := C1_winner_is_caller_on_win hId fullSt 2 1 .Rock 4
    1 .Paper 5 fullG
    { player := 1, movement := SecretGameMovement.new hId .Rock 4 }
    { player := 2, movement := SecretGameMovement.new hId .Paper 5 }
    rfl rfl rfl rfl rfl (by decide) (by decide) rfl
  exact hmain

/-! ## C8: reachable-state invariants -/

theorem GameState.has_player_iff (g : GameState) (a : AccountId) :
    g.has_player a = true ↔
      ((∃ pm, g.player1 = some pm ∧ pm.player = a)
        ∨ (∃ pm, g.player2 = some pm ∧ pm.player = a)) := by
  unfold GameState.has_player
  cases h1 : g.player1 <;> cases h2 : g.player2 <;> dsimp
  case none.none => simp
  case none.some => simp
  case some.none => simp
  case some.some =>
    simp
    tauto

/-- The per-game invariant of C8: the two slot holders are distinct players,
and a resolved result implies both slots are filled.  (That a game has at
most two filled slots is structural: `GameState` has exactly the two slot
fields.) -/
def GameState.inv (g : GameState) : Prop :=
  (∀ p q, g.player1 = some p → g.player2 = some q → p.player ≠ q.player)
  ∧ (g.game_result ≠ .NotPlayed →
      g.player1.isSome = true ∧ g.player2.isSome = true)

/-- Every stored game satisfies `GameState.inv`. -/
def StInv (st : PalletState) : Prop :=
  ∀ gid g, st.games gid = some g → g.inv

theorem inv_default : GameState.default.inv := by
  constructor
  · intro p q hp hq
    exact Option.noConfusion hp
  · intro hr
    exact absurd rfl hr

theorem add_player_preserves_inv (h : Bytes → Bytes) (g : GameState)
    (a : AccountId) (m : GameMovement) (s : Secret) (hinvg : g.inv)
    (hnp : g.has_player a = false) : ((g.add_player h a m s).1).inv := by
  have hniff : ¬((∃ pm, g.player1 = some pm ∧ pm.player = a)
      ∨ (∃ pm, g.player2 = some pm ∧ pm.player = a)) := by
    rw [← GameState.has_player_iff]
    simp [hnp]
  cases h1 : g.player1 with
  | none =>
    rw [add_player_slot1 h g a m s h1]
    constructor
    · intro p q hp hq
      dsimp at hp hq
      injection hp with hp
      subst hp
      dsimp
      intro heq
      exact hniff (Or.inr ⟨q, hq, heq.symm⟩)
    · intro hr
      dsimp at hr
      exact absurd ((hinvg.2 hr).1) (by rw [h1]; simp)
  | some pm =>
    cases h2 : g.player2 with
    | none =>
      rw [add_player_slot2 h g a m s pm h1 h2]
      constructor
      · intro p q hp hq
        dsimp at hp hq
        injection hq with hq
        subst hq
        dsimp
        rw [h1] at hp
        injection hp with hp
        subst hp
        intro heq
        exact hniff (Or.inl ⟨pm, h1, heq⟩)
      · intro hr
        dsimp at hr
        exact absurd ((hinvg.2 hr).2) (by rw [h2]; simp)
    | some pm2 =>
      have hid : (g.add_player h a m s).1 = g := by
        simp [GameState.add_player, h1, h2]
      rw [hid]
      exact hinvg

/-- C8: the per-game invariants — distinct slot holders, and a resolved
result only with both slots filled — hold in the initial storage and are
preserved by `create_game`, `play_game` and `reveal_winner` from any storage
satisfying them, so every reachable game state satisfies them. -/
theorem C8_invariants_preserved (h : Bytes → Bytes) (st : PalletState)
    (hinv : StInv st) :
    StInv stInit
    ∧ StInv (create_game st).1
    ∧ (∀ a gid m s, StInv (play_game h st a gid m s).state)
    ∧ (∀ caller gid m1 s1 p2acc m2 s2,
        StInv (reveal_winner h st caller gid m1 s1 p2acc m2 s2).state) := by
  refine ⟨?_, ?_, ?_, ?_⟩
  · intro gid g hg
    exact Option.noConfusion hg
  · intro gid g hg
    simp only [create_game, PalletState.insertGame] at hg
    by_cases hgid : gid = (st.nextGameId + 1) % 2 ^ 64
    · rw [if_pos hgid] at hg
      injection hg with hg
      subst hg
      exact inv_default
    · rw [if_neg hgid] at hg
      exact hinv gid g hg
  · intro a gid m s
    cases hr : play_game h st a gid m s with
    | ok st' ev =>
      rw [play_game_ok_iff] at hr
      obtain ⟨g, hg, hfree, hnp, rfl, -⟩ := hr
      intro gid' g' hg'
      dsimp [CallResult.state] at hg'
      by_cases hgid : gid' = gid
      · subst hgid
        rw [PalletState.insertGame_self] at hg'
        injection hg' with hg'
        subst hg'
        exact add_player_preserves_inv h g a m s (hinv gid' g hg) hnp
      · rw [PalletState.insertGame_ne st gid gid' _ hgid] at hg'
        exact hinv gid' g' hg'
    | err st' e =>
      have hst := play_game_fail_state h st a gid m s (by rw [hr]; rfl)
      rw [hr] at hst
      dsimp [CallResult.state] at hst ⊢
      rw [hst]
      exact hinv
    | panic st' =>
      have hst := play_game_fail_state h st a gid m s (by rw [hr]; rfl)
      rw [hr] at hst
      dsimp [CallResult.state] at hst ⊢
      rw [hst]
      exact hinv
  · intro caller gid m1 s1 p2acc m2 s2
    cases hr : reveal_winner h st caller gid m1 s1 p2acc m2 s2 with
    | ok st' ev =>
      obtain ⟨g, p1m, p2m, hg, hc, hp, h1, h2, hv1, hv2, hcase⟩ :=
        reveal_winner_ok_inv h st caller gid m1 s1 p2acc m2 s2 st' ev hr
      rcases hcase with ⟨-, hst, -⟩ | ⟨-, hst, -⟩
      · subst hst
        exact hinv
      · subst hst
        intro gid' g' hg'
        dsimp [CallResult.state] at hg'
        by_cases hgid : gid' = gid
        · subst hgid
          rw [PalletState.insertGame_self] at hg'
          injection hg' with hg'
          subst hg'
          constructor
          · exact (hinv gid' g hg).1
          · intro hr2
            constructor
            · show g.player1.isSome = true
              rw [h1]
              rfl
            · show g.player2.isSome = true
              rw [h2]
              rfl
        · rw [PalletState.insertGame_ne st gid gid' _ hgid] at hg'
          exact hinv gid' g' hg'
    | err st' e =>
      have hst := reveal_winner_fail_state h st caller gid m1 s1 p2acc m2 s2
        (by rw [hr]; rfl)
      rw [hr] at hst
      dsimp [CallResult.state] at hst ⊢
      rw [hst]
      exact hinv
    | panic st' =>
      have hst := reveal_winner_fail_state h st caller gid m1 s1 p2acc m2 s2
        (by rw [hr]; rfl)
      rw [hr] at hst
      dsimp [CallResult.state] at hst ⊢
      rw [hst]
      exact hinv

theorem C8_witness_invariants :
    StInv (create_game stInit).1
    ∧ StInv (play_game hId stInit 5 1 .Rock 9).state
    ∧ StInv (reveal_winner hId stInit 5 1 .Rock 9 6 .Paper 3).state := by
  obtain ⟨-, h2, h3, h4⟩ :=
    C8_invariants_preserved hId stInit (fun gid g hg => Option.noConfusion hg)
  exact ⟨h2, h3 5 1 .Rock 9, h4 5 1 .Rock 9 6 .Paper 3⟩
